import Mathlib

/-!
Verification of the bounded-concurrency scraping pipeline in `src/scraper.py`
(class `EcommerceScraper`). The Python code is shallowly embedded: network
attempts are an oracle `Nat → AttemptOutcome` (attempt index to outcome),
the HTML library is an oracle `String → PageContent`, and the mutable
`self.results` / `self.errors` lists together with the logging stream become
the explicit record `ScraperState` threaded through each operation.
-/

/-- Outcome of one network attempt inside `fetch_page`: a response with a
status code and body text, a timeout (`asyncio.TimeoutError`), or any other
transport exception. -/
inductive AttemptOutcome where
  | response (status : Nat) (body : String)
  | timeout
  | transportError (msg : String)
deriving Repr, DecidableEq

/-- An entry of `self.errors`: the dict `⦃'page': page_num, 'error': ...⦄`
appended by `fetch_page` and `parse_page`. -/
structure ErrorRecord where
  page : Nat
  error : String
deriving Repr, DecidableEq

/-- The per-listing fields extracted by the loop body of `parse_page`
(title, price, rating, stock flag, availability text, image URL, product
URL) before the page tag is attached. Prices are modelled as rationals. -/
structure ProductFields where
  name : String
  price : Rat
  rating : Nat
  inStock : Bool
  availability : String
  imgUrl : String
  productUrl : String
deriving Repr, DecidableEq

/-- A dict appended to `self.results` by `parse_page`: the extracted fields
plus the source page number (`'Scraped from page': page_num`). -/
structure ProductRecord where
  name : String
  price : Rat
  rating : Nat
  inStock : Bool
  availability : String
  imgUrl : String
  productUrl : String
  page : Nat
deriving Repr, DecidableEq

/-- Attach the page tag, as the dict literal in `parse_page` does. -/
def ProductFields.toRecord (f : ProductFields) (page : Nat) : ProductRecord :=
  { name := f.name, price := f.price, rating := f.rating, inStock := f.inStock,
    availability := f.availability, imgUrl := f.imgUrl, productUrl := f.productUrl,
    page := page }

/-- Log events emitted by `parse_page`: the warning for a skipped listing
(inner `except`) and the error for a page-level parse fault (outer
`except`). -/
inductive LogEntry where
  | skipListing (page : Nat) (msg : String)
  | pageError (page : Nat) (msg : String)
deriving Repr, DecidableEq

/-- One `article.product_pod` element as seen by the loop in `parse_page`:
either all field extractions succeed (`good`), or some extraction raises and
the inner `except` catches it (`bad`). -/
inductive Listing where
  | good (f : ProductFields)
  | bad (msg : String)
deriving Repr, DecidableEq

/-- True on the listings whose field extraction raises. -/
def Listing.isBad : Listing → Bool
  | .good _ => false
  | .bad _ => true

/-- What `BeautifulSoup` + `soup.select` yield for a given html string:
either the constructor raises before any listing is seen (`unreadable`), or
a list of listings is processed in order, optionally followed by an
exception escaping the loop after the listed items (`fault`) — both of
which land in the outer `except` of `parse_page`. -/
inductive PageContent where
  | unreadable (msg : String)
  | page (items : List Listing) (fault : Option String)
deriving Repr, DecidableEq

/-- The scraper's mutable state: `self.results`, `self.errors`, the log
stream, plus two instrumentation traces — the pages on which `fetch_page`
was invoked and the pages whose content was handed to `parse_page`. -/
structure ScraperState where
  results : List ProductRecord
  errors : List ErrorRecord
  log : List LogEntry
  fetchedPages : List Nat
  parsedPages : List Nat
deriving Repr, DecidableEq

/-- The state at the start of a run: `self.results = []`, `self.errors = []`. -/
def initState : ScraperState :=
  { results := [], errors := [], log := [], fetchedPages := [], parsedPages := [] }

/-- The condition `response.status == 200` that makes `fetch_page` return
the body immediately; every other outcome falls through to the retry
logic. -/
def attemptSucceeds : AttemptOutcome → Bool
  | .response status _ => status == 200
  | .timeout => false
  | .transportError _ => false

/-- The body text of a response outcome (`await response.text()`). -/
def bodyText : AttemptOutcome → String
  | .response _ body => body
  | .timeout => ""
  | .transportError _ => ""

/-- The value produced by one call of `fetch_page`: the returned content
(`None` on failure), the error records appended to `self.errors`, the
number of attempts performed, and the backoff sleeps in order. -/
structure FetchResult where
  content : Option String
  errors : List ErrorRecord
  attemptsMade : Nat
  sleeps : List Nat
deriving Repr, DecidableEq

/-- The `for attempt in range(3)` loop of `fetch_page`, recursing on the
remaining attempts. A succeeding attempt returns the body at once; a
failing one logs, sleeps `2 ** attempt` when `attempt < 2`, and continues.
When the budget is exhausted, `fetch_page` appends
`⦃'page': page_num, 'error': 'Failed to fetch'⦄` and returns `None`. -/
def fetchGo (oracle : Nat → AttemptOutcome) (page_num : Nat) :
    Nat → Nat → FetchResult
  | 0, _ =>
    { content := none, errors := [{ page := page_num, error := "Failed to fetch" }],
      attemptsMade := 0, sleeps := [] }
  | remaining + 1, attempt =>
    if attemptSucceeds (oracle attempt) then
      { content := some (bodyText (oracle attempt)), errors := [],
        attemptsMade := 1, sleeps := [] }
    else
      let rest := fetchGo oracle page_num remaining (attempt + 1)
      { content := rest.content, errors := rest.errors,
        attemptsMade := rest.attemptsMade + 1,
        sleeps := (if attempt < 2 then [2 ^ attempt] else []) ++ rest.sleeps }

/-- `fetch_page(self, session, page_num)` (src/scraper.py lines 57-87),
with the network modelled by `oracle`: attempt index to outcome. -/
def fetch_page (oracle : Nat → AttemptOutcome) (page_num : Nat) : FetchResult :=
  fetchGo oracle page_num 3 0

/-- The body of the `for product in products` loop of `parse_page`: a good
listing appends its record to `self.results`; a bad one logs a warning and
continues. -/
def processListing (page_num : Nat) (st : ScraperState) : Listing → ScraperState
  | .good f => { st with results := st.results ++ [f.toRecord page_num] }
  | .bad msg => { st with log := st.log ++ [.skipListing page_num msg] }

/-- `parse_page(self, html, page_num)` (src/scraper.py lines 89-136), with
the html already interpreted as a `PageContent`. The outer `except` turns a
page-level fault into an appended `ErrorRecord`; the trace `parsedPages`
records that the page's content reached the processor. -/
def parse_page (st : ScraperState) (content : PageContent) (page_num : Nat) :
    ScraperState :=
  let st0 := { st with parsedPages := st.parsedPages ++ [page_num] }
  match content with
  | .unreadable msg =>
    { st0 with errors := st0.errors ++ [{ page := page_num, error := "Parse error: " ++ msg }],
               log := st0.log ++ [.pageError page_num msg] }
  | .page items fault =>
    let st1 := items.foldl (processListing page_num) st0
    match fault with
    | some msg =>
      { st1 with errors := st1.errors ++ [{ page := page_num, error := "Parse error: " ++ msg }],
                 log := st1.log ++ [.pageError page_num msg] }
    | none => st1

/-- The inner closure `scrape_page_wrapper` of `scrape_all` (src/scraper.py
lines 148-152): fetch the page, then parse only when the returned html is
truthy (not `None` and not the empty string). `interp` models what
`BeautifulSoup` makes of a body string. -/
def scrape_page_wrapper (interp : String → PageContent)
    (oracle : Nat → AttemptOutcome) (page : Nat) (st : ScraperState) : ScraperState :=
  let f := fetch_page oracle page
  let st1 := { st with fetchedPages := st.fetchedPages ++ [page],
                       errors := st.errors ++ f.errors }
  match f.content with
  | some html => if html = "" then st1 else parse_page st1 (interp html) page
  | none => st1

/-- `scrape_all` (src/scraper.py lines 138-158) restricted to its
bookkeeping: one wrapper per page in `range(1, max_pages + 1)`. The
semaphore only schedules the wrappers; since every wrapper touches disjoint
page data and appends, the collected state is modelled by folding the
wrappers in page order. -/
def scrape_all (interp : String → PageContent)
    (env : Nat → Nat → AttemptOutcome) (max_pages : Nat) (st : ScraperState) :
    ScraperState :=
  (List.range' 1 max_pages).foldl
    (fun s page => scrape_page_wrapper interp (env page) page s) st

/-- The summary line `len(self.results)/elapsed` (src/scraper.py line 165):
Python raises `ZeroDivisionError` when `elapsed` is zero, there is no
guard. -/
def summarySpeed (st : ScraperState) (elapsed : Rat) : Except String Rat :=
  if elapsed = 0 then Except.error "ZeroDivisionError"
  else Except.ok ((st.results.length : Rat) / elapsed)

/-- The files written by one call of `export_to_excel`: the sorted product
rows and, when present, the error report rows. -/
structure ExportResult where
  productRows : Option (List ProductRecord)
  errorRows : Option (List ErrorRecord)
deriving Repr, DecidableEq

/-- The sort key of `df.sort_values(['Rating (1-5)', 'Price (£)'],
ascending=[False, True])`: rating descending, ties broken by price
ascending. -/
def exportLE (a b : ProductRecord) : Prop :=
  b.rating < a.rating ∨ (a.rating = b.rating ∧ a.price ≤ b.price)

instance : DecidableRel exportLE := fun a b => by
  unfold exportLE; exact inferInstance

/-- `export_to_excel` (src/scraper.py lines 167-205): `if not self.results:
return` writes nothing at all; otherwise the product sheet is written with
the rows sorted by the export key, and the error file is written exactly
when `self.errors` is non-empty. -/
def export_to_excel (results : List ProductRecord) (errors : List ErrorRecord) :
    ExportResult :=
  if results = [] then { productRows := none, errorRows := none }
  else
    { productRows := some (List.insertionSort exportLE results),
      errorRows := if errors = [] then none else some errors }

/-- The phase of one page task of `scrape_all` with respect to the
semaphore: not yet admitted, inside `async with semaphore` (fetching), or
finished (permit released). -/
inductive TaskPhase where
  | pending
  | running
  | done
deriving Repr, DecidableEq

/-- Number of tasks currently holding a permit (in-flight fetches). -/
def runningCount (l : List TaskPhase) : Nat :=
  l.countP (fun p => p == TaskPhase.running)

/-- Interleaving semantics of `asyncio.Semaphore(max_concurrent)` around
the page tasks: a pending task may enter only while fewer than `C` tasks
hold permits, and a running task may leave, releasing its permit (the
`async with` block guarantees release on every path). -/
inductive SemStep (C : Nat) : List TaskPhase → List TaskPhase → Prop where
  | acquire (l : List TaskPhase) (i : Nat) (h : l[i]? = some TaskPhase.pending)
      (hcap : runningCount l < C) : SemStep C l (l.set i TaskPhase.running)
  | release (l : List TaskPhase) (i : Nat) (h : l[i]? = some TaskPhase.running) :
      SemStep C l (l.set i TaskPhase.done)

/-- States reachable by the `N` page tasks from the initial all-pending
configuration under semaphore capacity `C`. -/
def SemReachable (C N : Nat) (s : List TaskPhase) : Prop :=
  Relation.ReflTransGen (SemStep C) (List.replicate N TaskPhase.pending) s

/-- The records appended by the listing loop of `parse_page`: one per good
listing, in order, tagged with the page number. -/
def goodRecords (items : List Listing) (page : Nat) : List ProductRecord :=
  items.filterMap fun l =>
    match l with
    | .good f => some (f.toRecord page)
    | .bad _ => none

/-- The skip warnings logged by the listing loop: one per bad listing. -/
def skipLogs (items : List Listing) (page : Nat) : List LogEntry :=
  items.filterMap fun l =>
    match l with
    | .good _ => none
    | .bad m => some (.skipListing page m)

/-- Products appended by one `parse_page` call on the given content. -/
def parseProducts (c : PageContent) (page : Nat) : List ProductRecord :=
  match c with
  | .unreadable _ => []
  | .page items _ => goodRecords items page

/-- Error records appended by one `parse_page` call: exactly one when the
outer `except` fires (unreadable content or a fault escaping the loop). -/
def parsePageErrors (c : PageContent) (page : Nat) : List ErrorRecord :=
  match c with
  | .unreadable msg => [{ page := page, error := "Parse error: " ++ msg }]
  | .page _ (some msg) => [{ page := page, error := "Parse error: " ++ msg }]
  | .page _ none => []

/-- Log entries emitted by one `parse_page` call. -/
def parseLogs (c : PageContent) (page : Nat) : List LogEntry :=
  match c with
  | .unreadable msg => [.pageError page msg]
  | .page items (some msg) => skipLogs items page ++ [.pageError page msg]
  | .page items none => skipLogs items page

/-- Products contributed by the page task for `page` in `scrape_all`. -/
def pageProducts (interp : String → PageContent) (oracle : Nat → AttemptOutcome)
    (page : Nat) : List ProductRecord :=
  match (fetch_page oracle page).content with
  | some b => if b = "" then [] else parseProducts (interp b) page
  | none => []

/-- Error records contributed by the page task for `page`: the fetch
failure record, if any, followed by the parse-fault record, if any. -/
def pageErrors (interp : String → PageContent) (oracle : Nat → AttemptOutcome)
    (page : Nat) : List ErrorRecord :=
  (fetch_page oracle page).errors ++
    match (fetch_page oracle page).content with
    | some b => if b = "" then [] else parsePageErrors (interp b) page
    | none => []

/-- Log entries contributed by the page task for `page`. -/
def pageLog (interp : String → PageContent) (oracle : Nat → AttemptOutcome)
    (page : Nat) : List LogEntry :=
  match (fetch_page oracle page).content with
  | some b => if b = "" then [] else parseLogs (interp b) page
  | none => []

/-- The `parsedPages` trace contributed by the page task for `page`:
`[page]` exactly when the fetched html is truthy. -/
def pageParsed (interp : String → PageContent) (oracle : Nat → AttemptOutcome)
    (page : Nat) : List Nat :=
  match (fetch_page oracle page).content with
  | some b => if b = "" then [] else [page]
  | none => []

/-- Sample extracted fields used to instantiate theorems on concrete runs. -/
def sampleFields : ProductFields :=
  { name := "A Light in the Attic", price := (5177 : Rat) / 100, rating := 3,
    inStock := true, availability := "In stock", imgUrl := "img", productUrl := "url" }

/-- A second sample record, with a higher rating, for sorting instances. -/
def sampleRecordHi : ProductRecord :=
  { name := "Tipping the Velvet", price := (2500 : Rat) / 100, rating := 5,
    inStock := true, availability := "In stock", imgUrl := "i", productUrl := "u",
    page := 1 }

/-- Network environment exhibiting the silent-page and the doubly-reported
page in one two-page run: page 1 answers 200 with an empty body, every
other page answers 200 with body `"x"`. -/
def envBoth : Nat → Nat → AttemptOutcome := fun page _ =>
  if page = 1 then AttemptOutcome.response 200 "" else AttemptOutcome.response 200 "x"

/-- Html interpretation for which every non-empty body is structurally
unreadable, so `parse_page` records a page-level error. -/
def interpFault : String → PageContent := fun _ => PageContent.unreadable "boom"

instance : IsTotal ProductRecord exportLE := by
  constructor
  intro a b
  unfold exportLE
  rcases lt_trichotomy a.rating b.rating with h | h | h
  · exact Or.inr (Or.inl h)
  · rcases le_total a.price b.price with hp | hp
    · exact Or.inl (Or.inr ⟨h, hp⟩)
    · exact Or.inr (Or.inr ⟨h.symm, hp⟩)
  · exact Or.inl (Or.inl h)

instance : IsTrans ProductRecord exportLE := by
  constructor
  intro a b c hab hbc
  unfold exportLE at hab hbc ⊢
  rcases hab with hab | ⟨hab, hab'⟩
  · rcases hbc with hbc | ⟨hbc, _⟩
    · exact Or.inl (lt_trans hbc hab)
    · exact Or.inl (hbc ▸ hab)
  · rcases hbc with hbc | ⟨hbc, hbc'⟩
    · exact Or.inl (hab ▸ hbc)
    · exact Or.inr ⟨hab.trans hbc, hab'.trans hbc'⟩

/-! ### Case analysis of `fetch_page` -/

theorem fetch_page_succ0 (oracle : Nat → AttemptOutcome) (page : Nat)
    (h0 : attemptSucceeds (oracle 0) = true) :
    fetch_page oracle page =
      { content := some (bodyText (oracle 0)), errors := [],
        attemptsMade := 1, sleeps := [] } := by
  simp [fetch_page, fetchGo, h0]

theorem fetch_page_succ1 (oracle : Nat → AttemptOutcome) (page : Nat)
    (h0 : attemptSucceeds (oracle 0) = false)
    (h1 : attemptSucceeds (oracle 1) = true) :
    fetch_page oracle page =
      { content := some (bodyText (oracle 1)), errors := [],
        attemptsMade := 2, sleeps := [1] } := by
  simp [fetch_page, fetchGo, h0, h1]

theorem fetch_page_succ2 (oracle : Nat → AttemptOutcome) (page : Nat)
    (h0 : attemptSucceeds (oracle 0) = false)
    (h1 : attemptSucceeds (oracle 1) = false)
    (h2 : attemptSucceeds (oracle 2) = true) :
    fetch_page oracle page =
      { content := some (bodyText (oracle 2)), errors := [],
        attemptsMade := 3, sleeps := [1, 2] } := by
  simp [fetch_page, fetchGo, h0, h1, h2]

theorem fetch_page_exhausted_eq (oracle : Nat → AttemptOutcome) (page : Nat)
    (h0 : attemptSucceeds (oracle 0) = false)
    (h1 : attemptSucceeds (oracle 1) = false)
    (h2 : attemptSucceeds (oracle 2) = false) :
    fetch_page oracle page =
      { content := none, errors := [{ page := page, error := "Failed to fetch" }],
        attemptsMade := 3, sleeps := [1, 2] } := by
  simp [fetch_page, fetchGo, h0, h1, h2]

theorem fetchGo_errors_page (oracle : Nat → AttemptOutcome) (page : Nat) :
    ∀ n a, ∀ e ∈ (fetchGo oracle page n a).errors, e.page = page := by
  intro n
  induction n with
  | zero => intro a e he; simp [fetchGo] at he; simp [he]
  | succ m ih =>
    intro a e he
    by_cases h : attemptSucceeds (oracle a) = true
    · simp [fetchGo, h] at he
    · simp [fetchGo, h] at he
      exact ih (a + 1) e he

theorem fetch_page_errors_page (oracle : Nat → AttemptOutcome) (page : Nat) :
    ∀ e ∈ (fetch_page oracle page).errors, e.page = page :=
  fetchGo_errors_page oracle page 3 0

theorem fetchGo_errors_content (oracle : Nat → AttemptOutcome) (page : Nat) :
    ∀ n a, (fetchGo oracle page n a).errors =
      if (fetchGo oracle page n a).content = none
      then [{ page := page, error := "Failed to fetch" }] else [] := by
  intro n
  induction n with
  | zero => intro a; simp [fetchGo]
  | succ m ih =>
    intro a
    by_cases h : attemptSucceeds (oracle a) = true
    · simp [fetchGo, h]
    · simp only [fetchGo, h, Bool.false_eq_true, if_false]
      exact ih (a + 1)

theorem fetch_page_errors_content (oracle : Nat → AttemptOutcome) (page : Nat) :
    (fetch_page oracle page).errors =
      if (fetch_page oracle page).content = none
      then [{ page := page, error := "Failed to fetch" }] else [] :=
  fetchGo_errors_content oracle page 3 0

/-! ### Closed forms for `parse_page`, the wrapper and `scrape_all` -/

theorem foldl_processListing (page : Nat) (items : List Listing) :
    ∀ st : ScraperState, items.foldl (processListing page) st =
      { st with results := st.results ++ goodRecords items page,
                log := st.log ++ skipLogs items page } := by
  induction items with
  | nil => intro st; simp [goodRecords, skipLogs]
  | cons l rest ih =>
    intro st
    cases l with
    | good f =>
      simp only [List.foldl_cons, processListing, ih]
      simp [goodRecords, skipLogs, List.filterMap_cons]
    | bad m =>
      simp only [List.foldl_cons, processListing, ih]
      simp [goodRecords, skipLogs, List.filterMap_cons]

theorem parse_page_eq (st : ScraperState) (c : PageContent) (page : Nat) :
    parse_page st c page =
      { results := st.results ++ parseProducts c page,
        errors := st.errors ++ parsePageErrors c page,
        log := st.log ++ parseLogs c page,
        fetchedPages := st.fetchedPages,
        parsedPages := st.parsedPages ++ [page] } := by
  cases c with
  | unreadable msg =>
    simp [parse_page, parseProducts, parsePageErrors, parseLogs]
  | page items fault =>
    cases fault with
    | none =>
      simp [parse_page, foldl_processListing, parseProducts, parsePageErrors, parseLogs]
    | some msg =>
      simp [parse_page, foldl_processListing, parseProducts, parsePageErrors, parseLogs]

theorem scrape_page_wrapper_eq (interp : String → PageContent)
    (oracle : Nat → AttemptOutcome) (page : Nat) (st : ScraperState) :
    scrape_page_wrapper interp oracle page st =
      { results := st.results ++ pageProducts interp oracle page,
        errors := st.errors ++ pageErrors interp oracle page,
        log := st.log ++ pageLog interp oracle page,
        fetchedPages := st.fetchedPages ++ [page],
        parsedPages := st.parsedPages ++ pageParsed interp oracle page } := by
  unfold scrape_page_wrapper pageProducts pageErrors pageLog pageParsed
  rcases hc : (fetch_page oracle page).content with _ | b
  · simp [hc]
  · rcases eq_or_ne b "" with hb | hb
    · subst hb; simp [hc]
    · simp [hc, hb, parse_page_eq, List.append_assoc]

theorem foldl_wrapper_eq (interp : String → PageContent)
    (env : Nat → Nat → AttemptOutcome) (pages : List Nat) :
    ∀ st : ScraperState,
      pages.foldl (fun s page => scrape_page_wrapper interp (env page) page s) st =
        { results := st.results ++ pages.flatMap (fun p => pageProducts interp (env p) p),
          errors := st.errors ++ pages.flatMap (fun p => pageErrors interp (env p) p),
          log := st.log ++ pages.flatMap (fun p => pageLog interp (env p) p),
          fetchedPages := st.fetchedPages ++ pages,
          parsedPages := st.parsedPages ++ pages.flatMap (fun p => pageParsed interp (env p) p) } := by
  induction pages with
  | nil => intro st; simp
  | cons p rest ih =>
    intro st
    rw [List.foldl_cons, scrape_page_wrapper_eq, ih]
    simp [List.flatMap_cons, List.append_assoc]

theorem scrape_all_eq (interp : String → PageContent)
    (env : Nat → Nat → AttemptOutcome) (P : Nat) (st : ScraperState) :
    scrape_all interp env P st =
      { results := st.results ++ (List.range' 1 P).flatMap (fun p => pageProducts interp (env p) p),
        errors := st.errors ++ (List.range' 1 P).flatMap (fun p => pageErrors interp (env p) p),
        log := st.log ++ (List.range' 1 P).flatMap (fun p => pageLog interp (env p) p),
        fetchedPages := st.fetchedPages ++ List.range' 1 P,
        parsedPages := st.parsedPages ++ (List.range' 1 P).flatMap (fun p => pageParsed interp (env p) p) } :=
  foldl_wrapper_eq interp env (List.range' 1 P) st

/-! ### Page tags and counts of the per-page deltas -/

theorem mem_goodRecords_page {items : List Listing} {page : Nat} :
    ∀ r ∈ goodRecords items page, r.page = page := by
  intro r hr
  simp only [goodRecords, List.mem_filterMap] at hr
  obtain ⟨l, _, hl⟩ := hr
  cases l with
  | good f => simp only [Option.some.injEq] at hl; subst hl; rfl
  | bad m => simp at hl

theorem mem_parseProducts_page {c : PageContent} {page : Nat} :
    ∀ r ∈ parseProducts c page, r.page = page := by
  intro r hr
  cases c with
  | unreadable msg => simp [parseProducts] at hr
  | page items fault => exact mem_goodRecords_page r hr

theorem mem_parsePageErrors_page {c : PageContent} {page : Nat} :
    ∀ e ∈ parsePageErrors c page, e.page = page := by
  intro e he
  cases c with
  | unreadable msg => simp [parsePageErrors] at he; simp [he]
  | page items fault =>
    cases fault with
    | none => simp [parsePageErrors] at he
    | some msg => simp [parsePageErrors] at he; simp [he]

theorem mem_pageErrors_page {interp : String → PageContent}
    {oracle : Nat → AttemptOutcome} {page : Nat} :
    ∀ e ∈ pageErrors interp oracle page, e.page = page := by
  intro e he
  unfold pageErrors at he
  rw [List.mem_append] at he
  rcases he with he | he
  · exact fetch_page_errors_page oracle page e he
  · rcases hc : (fetch_page oracle page).content with _ | b
    · rw [hc] at he; simp at he
    · rw [hc] at he
      rcases eq_or_ne b "" with hb | hb
      · simp [hb] at he
      · simp only [hb, if_neg, reduceIte] at he
        exact mem_parsePageErrors_page e he

theorem mem_pageProducts_page {interp : String → PageContent}
    {oracle : Nat → AttemptOutcome} {page : Nat} :
    ∀ r ∈ pageProducts interp oracle page, r.page = page := by
  intro r hr
  unfold pageProducts at hr
  rcases hc : (fetch_page oracle page).content with _ | b
  · rw [hc] at hr; simp at hr
  · rw [hc] at hr
    rcases eq_or_ne b "" with hb | hb
    · simp [hb] at hr
    · simp only [hb, if_neg, reduceIte] at hr
      exact mem_parseProducts_page r hr

theorem mem_pageParsed {interp : String → PageContent}
    {oracle : Nat → AttemptOutcome} {page q : Nat} :
    q ∈ pageParsed interp oracle page → q = page := by
  intro hq
  unfold pageParsed at hq
  rcases hc : (fetch_page oracle page).content with _ | b
  · rw [hc] at hq; simp at hq
  · rw [hc] at hq
    rcases eq_or_ne b "" with hb | hb
    · simp [hb] at hq
    · simp only [hb, if_neg, reduceIte] at hq
      simpa using hq

theorem pageParsed_eq_iff {interp : String → PageContent}
    {oracle : Nat → AttemptOutcome} {page : Nat} :
    pageParsed interp oracle page ≠ [] ↔
      ∃ b, (fetch_page oracle page).content = some b ∧ b ≠ "" := by
  unfold pageParsed
  rcases hc : (fetch_page oracle page).content with _ | b
  · simp
  · rcases eq_or_ne b "" with hb | hb
    · subst hb; simp
    · simp [if_neg hb, hb]

theorem goodRecords_cons_good (f : ProductFields) (rest : List Listing) (page : Nat) :
    goodRecords (Listing.good f :: rest) page =
      f.toRecord page :: goodRecords rest page := by
  simp [goodRecords, List.filterMap_cons]

theorem goodRecords_cons_bad (m : String) (rest : List Listing) (page : Nat) :
    goodRecords (Listing.bad m :: rest) page = goodRecords rest page := by
  simp [goodRecords, List.filterMap_cons]

theorem skipLogs_cons_good (f : ProductFields) (rest : List Listing) (page : Nat) :
    skipLogs (Listing.good f :: rest) page = skipLogs rest page := by
  simp [skipLogs, List.filterMap_cons]

theorem skipLogs_cons_bad (m : String) (rest : List Listing) (page : Nat) :
    skipLogs (Listing.bad m :: rest) page =
      LogEntry.skipListing page m :: skipLogs rest page := by
  simp [skipLogs, List.filterMap_cons]

theorem goodRecords_length (items : List Listing) (page : Nat) :
    (goodRecords items page).length + items.countP Listing.isBad = items.length := by
  induction items with
  | nil => simp [goodRecords]
  | cons l rest ih =>
    cases l with
    | good f =>
      rw [goodRecords_cons_good, List.countP_cons]
      simp [Listing.isBad]
      omega
    | bad m =>
      rw [goodRecords_cons_bad, List.countP_cons]
      simp [Listing.isBad]
      omega

theorem skipLogs_length (items : List Listing) (page : Nat) :
    (skipLogs items page).length = items.countP Listing.isBad := by
  induction items with
  | nil => simp [skipLogs]
  | cons l rest ih =>
    cases l with
    | good f =>
      rw [skipLogs_cons_good, List.countP_cons]
      simp [Listing.isBad]
      omega
    | bad m =>
      rw [skipLogs_cons_bad, List.countP_cons]
      simp [Listing.isBad]
      omega

theorem mem_skipLogs {items : List Listing} {page : Nat} :
    ∀ e ∈ skipLogs items page, ∃ m, e = LogEntry.skipListing page m := by
  intro e he
  simp only [skipLogs, List.mem_filterMap] at he
  obtain ⟨l, _, hl⟩ := he
  cases l with
  | good f => simp at hl
  | bad m => simp only [Option.some.injEq] at hl; exact ⟨m, hl.symm⟩

/-! ### Semaphore invariant -/

theorem runningCount_replicate_pending (N : Nat) :
    runningCount (List.replicate N TaskPhase.pending) = 0 := by
  induction N with
  | zero => rfl
  | succ n ih => simpa [List.replicate_succ, runningCount, List.countP_cons] using ih

theorem runningCount_set_running (l : List TaskPhase) :
    ∀ i, l[i]? = some TaskPhase.pending →
      runningCount (l.set i TaskPhase.running) = runningCount l + 1 := by
  induction l with
  | nil => intro i h; simp at h
  | cons x xs ih =>
    intro i h
    cases i with
    | zero =>
      simp only [List.getElem?_cons_zero, Option.some.injEq] at h
      subst h
      simp [runningCount, List.countP_cons]
    | succ j =>
      simp only [List.getElem?_cons_succ] at h
      simp only [List.set_cons_succ, runningCount, List.countP_cons]
      have := ih j h
      simp only [runningCount] at this
      omega

theorem runningCount_set_done (l : List TaskPhase) :
    ∀ i, l[i]? = some TaskPhase.running →
      runningCount (l.set i TaskPhase.done) + 1 = runningCount l := by
  induction l with
  | nil => intro i h; simp at h
  | cons x xs ih =>
    intro i h
    cases i with
    | zero =>
      simp only [List.getElem?_cons_zero, Option.some.injEq] at h
      subst h
      simp [runningCount, List.countP_cons]
    | succ j =>
      simp only [List.getElem?_cons_succ] at h
      simp only [List.set_cons_succ, runningCount, List.countP_cons]
      have := ih j h
      simp only [runningCount] at this
      omega

theorem semStep_runningCount {C : Nat} {a b : List TaskPhase}
    (h : SemStep C a b) (ha : runningCount a ≤ C) : runningCount b ≤ C := by
  cases h with
  | acquire i hi hcap =>
    rw [runningCount_set_running a i hi]
    omega
  | release i hi =>
    have hd := runningCount_set_done a i hi
    omega

/-! ### Claim C4 -/

/-- C4 counterexample: the claim says an attempt is retried exactly when it
ends in timeout, non-2xx status, or transport error. HTTP 204 is a 2xx
status — none of those retry triggers — yet the code retries it: with every
attempt answering 204, `fetch_page` performs all 3 attempts and fails,
because the code's retry condition is status different from 200, not
outside 2xx. -/
theorem fetch_retry_policy_counterexample :
    (200 ≤ 204 ∧ 204 < 300) ∧
    attemptSucceeds (AttemptOutcome.response 204 "No Content") = false ∧
    (fetch_page (fun _ => AttemptOutcome.response 204 "No Content") 5).attemptsMade = 3 ∧
    (fetch_page (fun _ => AttemptOutcome.response 204 "No Content") 5).content = none := by
  refine ⟨⟨by norm_num, by norm_num⟩, rfl, ?_, ?_⟩ <;> rfl

/-- C4 (amended): the fetcher makes at most 3 total attempts per page,
retrying an attempt exactly when it does not return HTTP 200 — that is, on
timeout, transport error, or any non-200 status (including 2xx statuses
other than 200) — and waits 2^0 time-units before attempt index 1 and 2^1
before attempt index 2, with no wait before the first attempt and none
after the final one; an attempt returning HTTP 200 ends the loop
immediately with the body text. -/
theorem fetch_retry_policy (oracle : Nat → AttemptOutcome) (page_num : Nat) :
    (fetch_page oracle page_num).attemptsMade ≤ 3 ∧
    (fetch_page oracle page_num).sleeps =
      (List.range ((fetch_page oracle page_num).attemptsMade - 1)).map (fun j => 2 ^ j) ∧
    (∀ i, i + 1 < (fetch_page oracle page_num).attemptsMade →
      attemptSucceeds (oracle i) = false) ∧
    (∀ i, i < (fetch_page oracle page_num).attemptsMade →
      attemptSucceeds (oracle i) = false → i + 1 < 3 →
      i + 1 < (fetch_page oracle page_num).attemptsMade) ∧
    (∀ i, i < (fetch_page oracle page_num).attemptsMade →
      attemptSucceeds (oracle i) = true →
      (fetch_page oracle page_num).content = some (bodyText (oracle i)) ∧
      (fetch_page oracle page_num).attemptsMade = i + 1) := by
  rcases Bool.eq_false_or_eq_true (attemptSucceeds (oracle 0)) with h0 | h0
  · rw [fetch_page_succ0 oracle page_num h0]
    refine ⟨by norm_num, rfl, ?_, ?_, ?_⟩
    · intro i hi
      have hi' : i + 1 < 1 := hi
      omega
    · intro i hi hf h3
      have hi' : i < 1 := hi
      interval_cases i
      simp [h0] at hf
    · intro i hi hs
      have hi' : i < 1 := hi
      interval_cases i
      exact ⟨rfl, rfl⟩
  · rcases Bool.eq_false_or_eq_true (attemptSucceeds (oracle 1)) with h1 | h1
    · rw [fetch_page_succ1 oracle page_num h0 h1]
      refine ⟨by norm_num, rfl, ?_, ?_, ?_⟩
      · intro i hi
        have hi' : i + 1 < 2 := hi
        have hz : i = 0 := by omega
        subst hz
        exact h0
      · intro i hi hf h3
        have hi' : i < 2 := hi
        interval_cases i
        · exact one_lt_two
        · simp [h1] at hf
      · intro i hi hs
        have hi' : i < 2 := hi
        interval_cases i
        · simp [h0] at hs
        · exact ⟨rfl, rfl⟩
    · rcases Bool.eq_false_or_eq_true (attemptSucceeds (oracle 2)) with h2 | h2
      · rw [fetch_page_succ2 oracle page_num h0 h1 h2]
        refine ⟨by norm_num, rfl, ?_, ?_, ?_⟩
        · intro i hi
          have hi' : i + 1 < 3 := hi
          have hi2 : i < 2 := by omega
          interval_cases i
          · exact h0
          · exact h1
        · intro i hi hf h3
          exact h3
        · intro i hi hs
          have hi' : i < 3 := hi
          interval_cases i
          · simp [h0] at hs
          · simp [h1] at hs
          · exact ⟨rfl, rfl⟩
      · rw [fetch_page_exhausted_eq oracle page_num h0 h1 h2]
        refine ⟨by norm_num, rfl, ?_, ?_, ?_⟩
        · intro i hi
          have hi' : i + 1 < 3 := hi
          have hi2 : i < 2 := by omega
          interval_cases i
          · exact h0
          · exact h1
        · intro i hi hf h3
          exact h3
        · intro i hi hs
          have hi' : i < 3 := hi
          interval_cases i
          · simp [h0] at hs
          · simp [h1] at hs
          · simp [h2] at hs

/-- Witness for C4: a run whose three attempts all time out sleeps exactly
1 then 2 time-units, via `fetch_retry_policy`. -/
theorem fetch_retry_policy_witness :
    (fetch_page (fun _ => AttemptOutcome.timeout) 7).sleeps = [1, 2] := by
  have h := (fetch_retry_policy (fun _ => AttemptOutcome.timeout) 7).2.1
  rw [show (fetch_page (fun _ => AttemptOutcome.timeout) 7).attemptsMade = 3 from rfl] at h
  simpa using h

/-! ### Claims C7 and C9 -/

/-- C7: a fetch whose attempts are all unsuccessful exhausts the budget,
returns the failure outcome (`None`, the code's rendering of
Failure/Exhausted) and appends exactly one ErrorRecord for that page
number. -/
theorem fetch_exhausted_error (oracle : Nat → AttemptOutcome) (page_num : Nat)
    (h : ∀ i, i < 3 → attemptSucceeds (oracle i) = false) :
    (fetch_page oracle page_num).content = none ∧
    (fetch_page oracle page_num).errors =
      [{ page := page_num, error := "Failed to fetch" }] := by
  rw [fetch_page_exhausted_eq oracle page_num
    (h 0 (by norm_num)) (h 1 (by norm_num)) (h 2 (by norm_num))]
  exact ⟨rfl, rfl⟩

/-- Witness for C7: a page answering HTTP 500 on all attempts yields `None`
and the single record for page 2, via `fetch_exhausted_error`. -/
theorem fetch_exhausted_error_witness :
    (∀ i, i < 3 →
      attemptSucceeds ((fun _ => AttemptOutcome.response 500 "Server Error") i) = false) ∧
    (fetch_page (fun _ => AttemptOutcome.response 500 "Server Error") 2).content = none ∧
    (fetch_page (fun _ => AttemptOutcome.response 500 "Server Error") 2).errors =
      [{ page := 2, error := "Failed to fetch" }] :=
  ⟨by decide, fetch_exhausted_error (fun _ => AttemptOutcome.response 500 "Server Error") 2 (by decide)⟩

/-- C9: an attempt returning HTTP 200 with an empty body makes `fetch_page`
return the empty text — not a failure, and no ErrorRecord — and the
wrapper's truthiness test `if html:` then skips `parse_page`, so the page
contributes nothing to the product collection, nothing to the error
collection, and is absent from the parsed-pages trace, while its fetch was
still issued. -/
theorem empty_body_silent (interp : String → PageContent)
    (oracle : Nat → AttemptOutcome) (page : Nat) (st : ScraperState)
    (h : oracle 0 = AttemptOutcome.response 200 "") :
    (fetch_page oracle page).content = some "" ∧
    (fetch_page oracle page).errors = [] ∧
    (scrape_page_wrapper interp oracle page st).results = st.results ∧
    (scrape_page_wrapper interp oracle page st).errors = st.errors ∧
    (scrape_page_wrapper interp oracle page st).parsedPages = st.parsedPages ∧
    (scrape_page_wrapper interp oracle page st).fetchedPages = st.fetchedPages ++ [page] := by
  have h0 : attemptSucceeds (oracle 0) = true := by rw [h]; rfl
  have hb : bodyText (oracle 0) = "" := by rw [h]; rfl
  have hfp := fetch_page_succ0 oracle page h0
  rw [hb] at hfp
  refine ⟨by rw [hfp], by rw [hfp], ?_, ?_, ?_, ?_⟩ <;>
    · unfold scrape_page_wrapper
      rw [hfp]
      simp

/-- Witness for C9: a one-page run against an empty 200 body leaves results,
errors and the parsed trace untouched, via `empty_body_silent`. -/
theorem empty_body_silent_witness :
    ((fun _ => AttemptOutcome.response 200 "") 0 = AttemptOutcome.response 200 "") ∧
    (scrape_page_wrapper (fun _ => PageContent.page [] none)
      (fun _ => AttemptOutcome.response 200 "") 4 initState).results = initState.results ∧
    (scrape_page_wrapper (fun _ => PageContent.page [] none)
      (fun _ => AttemptOutcome.response 200 "") 4 initState).errors = initState.errors :=
  ⟨rfl,
    (empty_body_silent (fun _ => PageContent.page [] none)
      (fun _ => AttemptOutcome.response 200 "") 4 initState rfl).2.2.1,
    (empty_body_silent (fun _ => PageContent.page [] none)
      (fun _ => AttemptOutcome.response 200 "") 4 initState rfl).2.2.2.1⟩

/-! ### Claims C6 and C10 -/

/-- C6: on page content whose K listings are all well-formed, `parse_page`
appends exactly K ProductRecords, each tagged with the page number; with
exactly one malformed listing among the K it appends exactly K-1 records
(all tagged with the page), logs exactly one skip warning for that listing,
and records no page-level ErrorRecord. -/
theorem parse_page_listing_counts (st : ScraperState) (items : List Listing)
    (page K : Nat) (hK : items.length = K) :
    ((parse_page st (PageContent.page items none) page).errors = st.errors) ∧
    (∀ r ∈ (parse_page st (PageContent.page items none) page).results,
      r ∈ st.results ∨ r.page = page) ∧
    (items.countP Listing.isBad = 1 →
      (parse_page st (PageContent.page items none) page).results.length =
        st.results.length + (K - 1) ∧
      ∃ m, (parse_page st (PageContent.page items none) page).log =
        st.log ++ [LogEntry.skipListing page m]) ∧
    ((∀ l ∈ items, Listing.isBad l = false) →
      (parse_page st (PageContent.page items none) page).results.length =
        st.results.length + K ∧
      (parse_page st (PageContent.page items none) page).log = st.log) := by
  rw [parse_page_eq]
  refine ⟨?_, ?_, ?_, ?_⟩
  · show st.errors ++ parsePageErrors (PageContent.page items none) page = st.errors
    simp [parsePageErrors]
  · intro r hr
    have hr' : r ∈ st.results ++ parseProducts (PageContent.page items none) page := hr
    rw [List.mem_append] at hr'
    rcases hr' with hr' | hr'
    · exact Or.inl hr'
    · exact Or.inr (mem_parseProducts_page r hr')
  · intro hbad
    constructor
    · show (st.results ++ parseProducts (PageContent.page items none) page).length = _
      have hlen := goodRecords_length items page
      simp only [parseProducts, List.length_append]
      omega
    · have hsk := skipLogs_length items page
      rw [hbad] at hsk
      obtain ⟨e, he⟩ := List.length_eq_one.mp hsk
      obtain ⟨m, hm⟩ := mem_skipLogs e (by rw [he]; exact List.mem_singleton_self e)
      refine ⟨m, ?_⟩
      show st.log ++ parseLogs (PageContent.page items none) page = _
      simp [parseLogs, he, hm]
  · intro hgood
    have hz : items.countP Listing.isBad = 0 := by
      rw [List.countP_eq_zero]
      intro l hl
      simp [hgood l hl]
    constructor
    · show (st.results ++ parseProducts (PageContent.page items none) page).length = _
      have hlen := goodRecords_length items page
      simp only [parseProducts, List.length_append]
      omega
    · have hsknil : skipLogs items page = [] := by
        have := skipLogs_length items page
        rw [hz] at this
        exact List.eq_nil_of_length_eq_zero this
      show st.log ++ parseLogs (PageContent.page items none) page = st.log
      simp [parseLogs, hsknil]

/-- Witness for C6: a two-listing page with one malformed listing yields one
record and no error, via `parse_page_listing_counts`. -/
theorem parse_page_listing_counts_witness :
    ([Listing.good sampleFields, Listing.bad "AttributeError"].length = 2) ∧
    ([Listing.good sampleFields, Listing.bad "AttributeError"].countP Listing.isBad = 1) ∧
    (parse_page initState
      (PageContent.page [Listing.good sampleFields, Listing.bad "AttributeError"] none)
      3).results.length = initState.results.length + (2 - 1) ∧
    (parse_page initState
      (PageContent.page [Listing.good sampleFields, Listing.bad "AttributeError"] none)
      3).errors = initState.errors := by
  have h := parse_page_listing_counts initState
    [Listing.good sampleFields, Listing.bad "AttributeError"] 3 2 (by decide)
  exact ⟨by decide, by decide, (h.2.2.1 (by decide)).1, h.1⟩

/-- C10: `parse_page` only ever appends to the product and error
collections — both final lists extend the initial ones — and under a
page-level fault every previously appended ProductRecord (in particular any
already there for this page) is retained alongside the newly appended
ErrorRecord, with the good listings processed before the fault also kept,
so a single page can contribute to both collections. -/
theorem parse_page_append_only (st : ScraperState) (c : PageContent) (page : Nat) :
    (∃ newRecs, (parse_page st c page).results = st.results ++ newRecs) ∧
    (∃ newErrs, (parse_page st c page).errors = st.errors ++ newErrs) ∧
    (∀ items msg, c = PageContent.page items (some msg) →
      (∀ r ∈ st.results, r ∈ (parse_page st c page).results) ∧
      ({ page := page, error := "Parse error: " ++ msg } : ErrorRecord) ∈
        (parse_page st c page).errors ∧
      (∀ f, Listing.good f ∈ items →
        f.toRecord page ∈ (parse_page st c page).results)) := by
  rw [parse_page_eq]
  refine ⟨⟨parseProducts c page, rfl⟩, ⟨parsePageErrors c page, rfl⟩, ?_⟩
  intro items msg hc
  subst hc
  refine ⟨?_, ?_, ?_⟩
  · intro r hr
    show r ∈ st.results ++ parseProducts (PageContent.page items (some msg)) page
    exact List.mem_append_left _ hr
  · show _ ∈ st.errors ++ parsePageErrors (PageContent.page items (some msg)) page
    apply List.mem_append_right
    simp [parsePageErrors]
  · intro f hf
    show _ ∈ st.results ++ parseProducts (PageContent.page items (some msg)) page
    apply List.mem_append_right
    simp only [parseProducts, goodRecords, List.mem_filterMap]
    exact ⟨Listing.good f, hf, rfl⟩

/-- Witness for C10: a page-level fault after one good listing keeps the
pre-existing record, the new record, and adds the page error, via
`parse_page_append_only`. -/
theorem parse_page_append_only_witness :
    sampleRecordHi ∈ (parse_page
      { results := [sampleRecordHi], errors := [], log := [],
        fetchedPages := [], parsedPages := [] }
      (PageContent.page [Listing.good sampleFields] (some "IndexError")) 9).results ∧
    ({ page := 9, error := "Parse error: " ++ "IndexError" } : ErrorRecord) ∈
      (parse_page
        { results := [sampleRecordHi], errors := [], log := [],
          fetchedPages := [], parsedPages := [] }
        (PageContent.page [Listing.good sampleFields] (some "IndexError")) 9).errors ∧
    sampleFields.toRecord 9 ∈ (parse_page
      { results := [sampleRecordHi], errors := [], log := [],
        fetchedPages := [], parsedPages := [] }
      (PageContent.page [Listing.good sampleFields] (some "IndexError")) 9).results := by
  have h := (parse_page_append_only
    { results := [sampleRecordHi], errors := [], log := [],
      fetchedPages := [], parsedPages := [] }
    (PageContent.page [Listing.good sampleFields] (some "IndexError")) 9).2.2
    [Listing.good sampleFields] "IndexError" rfl
  exact ⟨h.1 sampleRecordHi (List.mem_singleton_self sampleRecordHi), h.2.1,
    h.2.2 sampleFields (List.mem_singleton_self (Listing.good sampleFields))⟩

/-! ### Claims C2, C3 and C8 -/

/-- C2 counterexample: with a non-empty error collection but an empty
product collection, `export_to_excel` returns at the `if not self.results`
guard and writes no error report artifact at all, refuting "regardless of
whether the product collection is empty". -/
theorem export_error_report_counterexample :
    (([{ page := 2, error := "Failed to fetch" }] : List ErrorRecord) ≠ []) ∧
    (export_to_excel [] [{ page := 2, error := "Failed to fetch" }]).errorRows = none := by
  exact ⟨by simp, rfl⟩

/-- C2 (amended): when the product collection is non-empty, a non-empty
error collection makes `export_to_excel` write the error report listing
exactly the recorded page/error pairs; when the product collection is
empty the function returns early and writes nothing, errors or not. -/
theorem export_error_report (results : List ProductRecord) (errors : List ErrorRecord) :
    (results ≠ [] → errors ≠ [] →
      (export_to_excel results errors).errorRows = some errors) ∧
    (results = [] →
      export_to_excel results errors = { productRows := none, errorRows := none }) := by
  constructor
  · intro hr he
    unfold export_to_excel
    rw [if_neg hr]
    simp [he]
  · intro hr
    unfold export_to_excel
    rw [if_pos hr]

/-- Witness for C2: one product row and one error record produce the error
report with that record, via `export_error_report`. -/
theorem export_error_report_witness :
    (([sampleRecordHi] : List ProductRecord) ≠ []) ∧
    (([{ page := 2, error := "Failed to fetch" }] : List ErrorRecord) ≠ []) ∧
    (export_to_excel [sampleRecordHi] [{ page := 2, error := "Failed to fetch" }]).errorRows =
      some [{ page := 2, error := "Failed to fetch" }] :=
  ⟨by simp, by simp,
    (export_error_report [sampleRecordHi] [{ page := 2, error := "Failed to fetch" }]).1
      (by simp) (by simp)⟩

/-- C3 counterexample: the summary computation of `scrape_all` divides by
`elapsed` with no guard, so the zero-elapsed run (e.g. a zero-page run
finishing within clock resolution) raises ZeroDivisionError, refuting "never
divides by zero". -/
theorem summarySpeed_counterexample :
    summarySpeed initState 0 = Except.error "ZeroDivisionError" := rfl

/-- C3 (amended): the Finalize step computes throughput as
products/elapsed unconditionally — there is no `elapsed > 0` guard in the
code — so the division succeeds exactly on runs with non-zero elapsed time
and raises ZeroDivisionError when elapsed = 0. -/
theorem summarySpeed_nonzero (st : ScraperState) (elapsed : Rat) (h : elapsed ≠ 0) :
    summarySpeed st elapsed = Except.ok ((st.results.length : Rat) / elapsed) := by
  unfold summarySpeed
  rw [if_neg h]

/-- Witness for C3: a 2-second run computes its speed, via
`summarySpeed_nonzero`. -/
theorem summarySpeed_nonzero_witness :
    ((2 : Rat) ≠ 0) ∧
    summarySpeed initState 2 = Except.ok ((initState.results.length : Rat) / 2) :=
  ⟨by norm_num, summarySpeed_nonzero initState 2 (by norm_num)⟩

/-- C8: for a non-empty product collection, the exported product rows are a
permutation of the collection sorted by rating descending and, among equal
ratings, by price ascending. -/
theorem export_sorted (results : List ProductRecord) (errors : List ErrorRecord)
    (h : results ≠ []) :
    ∃ out, (export_to_excel results errors).productRows = some out ∧
      List.Perm out results ∧
      out.Pairwise (fun a b =>
        b.rating < a.rating ∨ (a.rating = b.rating ∧ a.price ≤ b.price)) := by
  refine ⟨List.insertionSort exportLE results, ?_, ?_, ?_⟩
  · unfold export_to_excel
    rw [if_neg h]
  · exact List.perm_insertionSort exportLE results
  · exact List.sorted_insertionSort exportLE results

/-- Witness for C8: a concrete two-row export is sorted, via
`export_sorted`. -/
theorem export_sorted_witness :
    (([sampleFields.toRecord 2, sampleRecordHi] : List ProductRecord) ≠ []) ∧
    ∃ out, (export_to_excel [sampleFields.toRecord 2, sampleRecordHi] []).productRows = some out ∧
      List.Perm out [sampleFields.toRecord 2, sampleRecordHi] ∧
      out.Pairwise (fun a b =>
        b.rating < a.rating ∨ (a.rating = b.rating ∧ a.price ≤ b.price)) :=
  ⟨by simp, export_sorted [sampleFields.toRecord 2, sampleRecordHi] [] (by simp)⟩

/-! ### Claim C5 -/

/-- C5: under any concurrency cap C ≥ 1 and any number N of dispatched page
tasks (including N far greater than C), every state reachable by the
semaphore-gated tasks has at most C fetches in flight: a fetch runs only
between acquiring and releasing one of the C permits, and acquisition is
admitted only below capacity. -/
theorem semaphore_inflight_bound (C N : Nat) (hC : 1 ≤ C) (s : List TaskPhase)
    (h : SemReachable C N s) : runningCount s ≤ C := by
  unfold SemReachable at h
  induction h with
  | refl => rw [runningCount_replicate_pending]; omega
  | tail hsteps hstep ih => exact semStep_runningCount hstep ih

/-- Witness for C5: with cap 1 and two tasks, the state after one admission
has one fetch in flight, within the bound, via `semaphore_inflight_bound`. -/
theorem semaphore_inflight_bound_witness :
    (1 ≤ 1) ∧
    runningCount ((List.replicate 2 TaskPhase.pending).set 0 TaskPhase.running) ≤ 1 :=
  ⟨le_refl 1, semaphore_inflight_bound 1 2 (le_refl 1) _
    (Relation.ReflTransGen.single
      (SemStep.acquire (List.replicate 2 TaskPhase.pending) 0 (by decide) (by decide)))⟩

/-! ### Claim C1 -/

theorem mem_range'_self {P p : Nat} (h1 : 1 ≤ p) (h2 : p ≤ P) :
    p ∈ List.range' 1 P := by
  rw [List.mem_range']
  exact ⟨p - 1, by omega, by omega⟩

theorem mem_pageParsed_self_iff {interp : String → PageContent}
    {oracle : Nat → AttemptOutcome} {p : Nat} :
    p ∈ pageParsed interp oracle p ↔
      ∃ b, (fetch_page oracle p).content = some b ∧ b ≠ "" := by
  unfold pageParsed
  rcases hc : (fetch_page oracle p).content with _ | b
  · simp
  · rcases eq_or_ne b "" with hb | hb
    · subst hb; simp
    · simp [hb]

theorem pageErrors_ne_nil_iff {interp : String → PageContent}
    {oracle : Nat → AttemptOutcome} {p : Nat} :
    pageErrors interp oracle p ≠ [] ↔
      ((fetch_page oracle p).content = none ∨
        ∃ b, (fetch_page oracle p).content = some b ∧ b ≠ "" ∧
          parsePageErrors (interp b) p ≠ []) := by
  unfold pageErrors
  rw [fetch_page_errors_content]
  rcases hc : (fetch_page oracle p).content with _ | b
  · simp
  · rcases eq_or_ne b "" with hb | hb
    · subst hb; simp
    · simp [hb]

theorem mem_flatMap_pageParsed_iff {interp : String → PageContent}
    {env : Nat → Nat → AttemptOutcome} {P p : Nat} (h1 : 1 ≤ p) (h2 : p ≤ P) :
    p ∈ (List.range' 1 P).flatMap (fun q => pageParsed interp (env q) q) ↔
      p ∈ pageParsed interp (env p) p := by
  rw [List.mem_flatMap]
  constructor
  · rintro ⟨q, hq, hpq⟩
    have hqp : p = q := mem_pageParsed hpq
    subst hqp
    exact hpq
  · intro hp
    exact ⟨p, mem_range'_self h1 h2, hp⟩

theorem mem_flatMap_pageErrors_iff {interp : String → PageContent}
    {env : Nat → Nat → AttemptOutcome} {P p : Nat} (h1 : 1 ≤ p) (h2 : p ≤ P) :
    (∃ e ∈ (List.range' 1 P).flatMap (fun q => pageErrors interp (env q) q), e.page = p) ↔
      pageErrors interp (env p) p ≠ [] := by
  constructor
  · rintro ⟨e, he, hep⟩
    rw [List.mem_flatMap] at he
    obtain ⟨q, hq, heq⟩ := he
    have hq' : e.page = q := mem_pageErrors_page e heq
    have hqp : q = p := by rw [← hq', hep]
    subst hqp
    intro hnil
    rw [hnil] at heq
    simp at heq
  · intro hne
    obtain ⟨e, he⟩ := List.exists_mem_of_ne_nil (pageErrors interp (env p) p) hne
    refine ⟨e, ?_, mem_pageErrors_page e he⟩
    rw [List.mem_flatMap]
    exact ⟨p, mem_range'_self h1 h2, he⟩

/-- C1 counterexample: in the two-page run where page 1 answers HTTP 200
with an empty body and page 2 answers 200 with content the parser finds
unreadable, page 1 ends up in neither outcome set (never handed to the page
processor, no error record), while page 2 ends up in both — refuting "each
page ends up in exactly one of the two outcome sets". -/
theorem scrape_outcome_counterexample :
    (1 ∉ (scrape_all interpFault envBoth 2 initState).parsedPages ∧
      ¬ ∃ e ∈ (scrape_all interpFault envBoth 2 initState).errors, e.page = 1) ∧
    (2 ∈ (scrape_all interpFault envBoth 2 initState).parsedPages ∧
      ∃ e ∈ (scrape_all interpFault envBoth 2 initState).errors, e.page = 2) := by
  decide

/-- C1 (amended): `scrape_all` issues exactly one fetch per page 1..P (the
fetch trace is precisely the list 1..P); a page's content is handed to the
page processor iff its fetch returned non-empty content; and a page appears
in the error collection iff its fetch exhausted all attempts or its handed
content hit a page-level parse fault. Consequently a page fetched
successfully with empty content is in neither set, and a page whose parse
faults is in both. -/
theorem scrape_outcome_partition (interp : String → PageContent)
    (env : Nat → Nat → AttemptOutcome) (P p : Nat) (h1 : 1 ≤ p) (h2 : p ≤ P) :
    (scrape_all interp env P initState).fetchedPages = List.range' 1 P ∧
    (scrape_all interp env P initState).fetchedPages.count p = 1 ∧
    ((p ∈ (scrape_all interp env P initState).parsedPages) ↔
      ∃ b, (fetch_page (env p) p).content = some b ∧ b ≠ "") ∧
    ((∃ e ∈ (scrape_all interp env P initState).errors, e.page = p) ↔
      ((fetch_page (env p) p).content = none ∨
        ∃ b, (fetch_page (env p) p).content = some b ∧ b ≠ "" ∧
          parsePageErrors (interp b) p ≠ [])) := by
  have hall := scrape_all_eq interp env P initState
  have hfetched : (scrape_all interp env P initState).fetchedPages = List.range' 1 P := by
    rw [hall]
    show initState.fetchedPages ++ List.range' 1 P = List.range' 1 P
    simp [initState]
  refine ⟨hfetched, ?_, ?_, ?_⟩
  · rw [hfetched]
    exact List.count_eq_one_of_mem (List.nodup_range' 1 P) (mem_range'_self h1 h2)
  · rw [hall]
    show p ∈ initState.parsedPages ++ _ ↔ _
    simp only [initState, List.nil_append]
    rw [mem_flatMap_pageParsed_iff h1 h2, mem_pageParsed_self_iff]
  · rw [hall]
    show (∃ e ∈ initState.errors ++ _, e.page = p) ↔ _
    simp only [initState, List.nil_append]
    rw [mem_flatMap_pageErrors_iff h1 h2, pageErrors_ne_nil_iff]

/-- Witness for C1: in the same two-page run used above, page 2 is fetched
exactly once and its parse-fault membership matches the characterization,
via `scrape_outcome_partition`. -/
theorem scrape_outcome_partition_witness :
    (1 ≤ 2 ∧ 2 ≤ 2) ∧
    (scrape_all interpFault envBoth 2 initState).fetchedPages = List.range' 1 2 ∧
    (scrape_all interpFault envBoth 2 initState).fetchedPages.count 2 = 1 := by
  have h := scrape_outcome_partition interpFault envBoth 2 2 (by norm_num) (le_refl 2)
  exact ⟨⟨by norm_num, le_refl 2⟩, h.1, h.2.1⟩
